import Mathlib

/-!
Verification development for the ShareFlow signaling server and its WebRTC
negotiation layer.

The definitions below are shallow embeddings of:
  * `src/frontend/lib/webrtcFixed.ts` — the two connection classes
    `FixedWebRTCConnection` and `SimpleWebRTCConnection` (their
    `createOffer`, `handleOffer`, `addIceCandidate` and candidate-buffer
    processing methods), with the underlying `RTCPeerConnection` modelled by
    the fields the code reads (`remoteDescription`, `signalingState`) and
    `setRemoteDescription` given the standard perfect-negotiation semantics
    (applying an offer while holding a local offer implicitly rolls the
    local offer back).  Candidates handed to `pc.addIceCandidate` are
    recorded in the order of the calls in the `applied` field; the byte
    content of descriptions and candidates is opaque, so a description is a
    type tag plus a numeric payload id, and the answer produced for a
    remote offer carries that offer's payload id (recording which offer was
    answered).
  * the second (authoritative) copy of `src/server/index.js` — the room
    registry (`createRoom`, `addUserToRoom`, `removeUserFromRoom`), the
    socket handlers `room:create`, `room:join`, `disconnect` and the
    `webrtc:*` relay handlers.  Server state is a triple of association
    lists (rooms, users, socket.io channel membership); handler effects are
    returned as an explicit trace of emissions (with the recipient set
    resolved at emission time) and registry deletions.  JavaScript numeric
    fields (`maxViewers`) are `Int`; truthiness of a string field is
    modelled as the string being nonempty.
-/

/-- Type tag of an `RTCSessionDescriptionInit` (`offer.type` in the code). -/
inductive SDPType where
  | offer
  | answer
deriving DecidableEq, Repr

/-- A session description: type tag plus an opaque payload id. -/
structure SDesc where
  type : SDPType
  sdp : Nat
deriving DecidableEq, Repr

/-- The answer `pc.createAnswer()` produces after `setRemoteDescription d`:
it carries the payload id of the remote offer it answers, so the proofs can
track which offer won a negotiation. -/
def answerTo (d : SDesc) : SDesc := ⟨SDPType.answer, d.sdp⟩

/-- `RTCPeerConnection.signalingState` values the code distinguishes. -/
inductive SigState where
  | stable
  | haveLocalOffer
  | haveRemoteOffer
deriving DecidableEq, Repr

/-- State of a `FixedWebRTCConnection` (class at `webrtcFixed.ts` lines
2-296): its own fields `isPolite`, `pendingCandidates`, `isNegotiating`,
`makingOffer`, plus the fields of the wrapped `RTCPeerConnection` that the
class reads or writes (`remoteDescription`, `localDescription`).  `applied`
records, in call order, every candidate passed to `pc.addIceCandidate`. -/
structure FixedConn where
  isPolite : Bool
  remoteDescription : Option SDesc
  localDescription : Option SDesc
  pendingCandidates : List Nat
  applied : List Nat
  isNegotiating : Bool
  makingOffer : Bool
deriving DecidableEq, Repr

/-- A freshly constructed `FixedWebRTCConnection`. -/
def initFixed (polite : Bool) : FixedConn :=
  ⟨polite, none, none, [], [], false, false⟩

/-- `FixedWebRTCConnection.processPendingCandidates`: if the pending list is
nonempty, pass each pending candidate to `pc.addIceCandidate` in order and
clear the list (the code ignores per-candidate errors; candidates are
modelled as accepted). -/
def FixedConn.processPendingCandidates (c : FixedConn) : FixedConn :=
  if 0 < c.pendingCandidates.length then
    { c with applied := c.applied ++ c.pendingCandidates, pendingCandidates := [] }
  else c

/-- `FixedWebRTCConnection.handleOffer`: sets `isNegotiating`, applies the
remote description, drains pending candidates, and for an offer creates and
sets a local answer which it returns; for an answer it returns `null`.
There is no politeness or collision check in this class. -/
def FixedConn.handleOffer (c : FixedConn) (d : SDesc) : FixedConn × Option SDesc :=
  let c1 := { c with isNegotiating := true }
  match d.type with
  | SDPType.offer =>
      let c2 := { c1 with remoteDescription := some d }
      let c3 := c2.processPendingCandidates
      let ans := answerTo d
      let c4 := { c3 with localDescription := some ans }
      ({ c4 with isNegotiating := false }, some ans)
  | SDPType.answer =>
      let c2 := { c1 with remoteDescription := some d }
      let c3 := c2.processPendingCandidates
      ({ c3 with isNegotiating := false }, none)

/-- `FixedWebRTCConnection.addIceCandidate`: queue while
`pc.remoteDescription` is null, otherwise apply immediately. -/
def FixedConn.addIceCandidate (c : FixedConn) (cand : Nat) : FixedConn :=
  if c.remoteDescription = none then
    { c with pendingCandidates := c.pendingCandidates ++ [cand] }
  else
    { c with applied := c.applied ++ [cand] }

/-- `FixedWebRTCConnection.createOffer`: sets `makingOffer` and
`isNegotiating`, creates and sets a local offer (payload id `sdp`), and in
the `finally` block resets `makingOffer`; `isNegotiating` stays true. -/
def FixedConn.createOffer (c : FixedConn) (sdp : Nat) : FixedConn × SDesc :=
  let off : SDesc := ⟨SDPType.offer, sdp⟩
  ({ c with makingOffer := false, isNegotiating := true,
            localDescription := some off }, off)

/-- State of a `SimpleWebRTCConnection` (class at `webrtcFixed.ts` lines
297-534): fields `isPolite`, `makingOffer`, `ignoreOffer`,
`remoteDescriptionSet`, `iceCandidateBuffer`, plus the wrapped peer
connection's `signalingState` and descriptions.  `applied` records the
candidates passed to `pc.addIceCandidate` in order. -/
structure SimpleConn where
  isPolite : Bool
  makingOffer : Bool
  ignoreOffer : Bool
  signalingState : SigState
  remoteDescription : Option SDesc
  localDescription : Option SDesc
  remoteDescriptionSet : Bool
  iceCandidateBuffer : List Nat
  applied : List Nat
deriving DecidableEq, Repr

/-- A freshly constructed `SimpleWebRTCConnection`. -/
def initSimple (polite : Bool) : SimpleConn :=
  ⟨polite, false, false, SigState.stable, none, none, false, [], []⟩

/-- `SimpleWebRTCConnection.processIceCandidateBuffer`. -/
def SimpleConn.processIceCandidateBuffer (c : SimpleConn) : SimpleConn :=
  if 0 < c.iceCandidateBuffer.length then
    { c with applied := c.applied ++ c.iceCandidateBuffer, iceCandidateBuffer := [] }
  else c

/-- `SimpleWebRTCConnection.handleOffer` — the perfect-negotiation pattern:
a collision is an incoming offer while `makingOffer` or while the signaling
state is not stable; the impolite peer ignores the colliding offer and
returns `null`; otherwise the remote description is applied (with the
implicit rollback of a pending local offer), buffered candidates are
drained, and for an offer `setLocalDescription()` produces the answer that
is returned. -/
def SimpleConn.handleOffer (c : SimpleConn) (d : SDesc) : SimpleConn × Option SDesc :=
  let offerCollision :=
    d.type = SDPType.offer ∧ (c.makingOffer = true ∨ c.signalingState ≠ SigState.stable)
  if c.isPolite = false ∧ offerCollision then
    ({ c with ignoreOffer := true }, none)
  else
    let c0 := { c with ignoreOffer := false }
    match d.type with
    | SDPType.offer =>
        let c1 := { c0 with
          remoteDescription := some d,
          localDescription :=
            if c0.signalingState = SigState.haveLocalOffer then none
            else c0.localDescription,
          signalingState := SigState.haveRemoteOffer,
          remoteDescriptionSet := true }
        let c2 := c1.processIceCandidateBuffer
        let ans := answerTo d
        ({ c2 with localDescription := some ans, signalingState := SigState.stable },
         some ans)
    | SDPType.answer =>
        let c1 := { c0 with
          remoteDescription := some d,
          signalingState := SigState.stable,
          remoteDescriptionSet := true }
        let c2 := c1.processIceCandidateBuffer
        (c2, none)

/-- `SimpleWebRTCConnection.addIceCandidate`: buffer while
`remoteDescriptionSet` is false, otherwise apply immediately. -/
def SimpleConn.addIceCandidate (c : SimpleConn) (cand : Nat) : SimpleConn :=
  if c.remoteDescriptionSet = false then
    { c with iceCandidateBuffer := c.iceCandidateBuffer ++ [cand] }
  else
    { c with applied := c.applied ++ [cand] }

/-- `SimpleWebRTCConnection.createOffer` (also the body of the
`onnegotiationneeded` handler): create and set a local offer. -/
def SimpleConn.createOffer (c : SimpleConn) (sdp : Nat) : SimpleConn × SDesc :=
  let off : SDesc := ⟨SDPType.offer, sdp⟩
  ({ c with makingOffer := false, localDescription := some off,
            signalingState := SigState.haveLocalOffer }, off)

/-- An inbound signaling event for one negotiation engine: an ICE candidate
or a session description. -/
inductive NegEvent where
  | cand (c : Nat)
  | desc (d : SDesc)
deriving DecidableEq, Repr

/-- One inbound event applied to a `FixedWebRTCConnection`. -/
def FixedConn.step (c : FixedConn) : NegEvent → FixedConn
  | NegEvent.cand x => c.addIceCandidate x
  | NegEvent.desc d => (c.handleOffer d).1

/-- A sequence of inbound events applied to a `FixedWebRTCConnection`. -/
def FixedConn.run (c : FixedConn) (es : List NegEvent) : FixedConn :=
  es.foldl FixedConn.step c

/-- One inbound event applied to a `SimpleWebRTCConnection`. -/
def SimpleConn.step (c : SimpleConn) : NegEvent → SimpleConn
  | NegEvent.cand x => c.addIceCandidate x
  | NegEvent.desc d => (c.handleOffer d).1

/-- A sequence of inbound events applied to a `SimpleWebRTCConnection`. -/
def SimpleConn.run (c : SimpleConn) (es : List NegEvent) : SimpleConn :=
  es.foldl SimpleConn.step c

/-- A user record as built by the server handlers (`id`, truncated `name`,
`isHost`); `connectedAt` is dropped as no claim mentions it. -/
structure RUser where
  id : String
  name : String
  isHost : Bool
deriving DecidableEq, Repr

/-- A room record as built by `createRoom` in `src/server/index.js`
(`createdAt` dropped; `id` duplicates `code`).  `maxViewers` is an `Int`
because the handler stores the client-supplied JavaScript number after
`Math.min(maxViewers, 10)`, which does not exclude zero or negatives. -/
structure Room where
  code : String
  hostId : String
  hostName : String
  viewers : List RUser
  maxViewers : Int
  isStreaming : Bool
deriving DecidableEq, Repr

/-- `createRoom(hostId, hostName, roomCode, maxViewers)` (server lines
550-567) with the code already resolved by the caller: fresh room, no
viewers, not streaming, `maxViewers` capped above by `Math.min(_, 10)`. -/
def createRoom (hostId hostName code : String) (maxViewers : Int) : Room :=
  { code := code
    hostId := hostId
    hostName := hostName
    viewers := []
    maxViewers := min maxViewers 10
    isStreaming := false }

/-- The core of `addUserToRoom` (server lines 569-589) once the room is
found: reject when `viewers.length >= maxViewers` and the user is not a
host; otherwise push the user unless a viewer with the same id is already
present. -/
def addViewer (room : Room) (user : RUser) : Option Room :=
  if room.maxViewers ≤ (room.viewers.length : Int) ∧ user.isHost = false then
    none
  else if room.viewers.any (fun v => v.id = user.id) then
    some room
  else
    some { room with viewers := room.viewers ++ [user] }

/-- Association-list lookup, mirroring `Map.get`. -/
def lookupA {α : Type} : List (String × α) → String → Option α
  | [], _ => none
  | (k, v) :: t, key => if k = key then some v else lookupA t key

/-- Association-list update/insert, mirroring `Map.set` (and in-place
mutation of a fetched record). -/
def setA {α : Type} : List (String × α) → String → α → List (String × α)
  | [], key, v => [(key, v)]
  | (k, w) :: t, key, v =>
      if k = key then (key, v) :: t else (k, w) :: setA t key v

/-- Association-list removal, mirroring `Map.delete`. -/
def eraseA {α : Type} : List (String × α) → String → List (String × α)
  | [], _ => []
  | (k, w) :: t, key =>
      if k = key then eraseA t key else (k, w) :: eraseA t key

/-- `addUserToRoom(roomCode, user)` (server lines 569-589): look the room
up in the registry and run the capacity / reconnection logic; `none` is the
`null` return (room absent or room full). -/
def addUserToRoom (rooms : List (String × Room)) (code : String) (user : RUser) :
    Option Room :=
  match lookupA rooms code with
  | none => none
  | some room => addViewer room user

/-- The server state touched by the claims: the `rooms` and `users` maps and
the socket.io channel membership (`io.sockets.adapter.rooms`). -/
structure Sys where
  rooms : List (String × Room)
  users : List (String × RUser)
  channels : List (String × List String)
deriving DecidableEq, Repr

/-- The empty server state. -/
def sys0 : Sys := ⟨[], [], []⟩

/-- Members of a socket.io channel. -/
def chanMembers (s : Sys) (code : String) : List String :=
  (lookupA s.channels code).getD []

/-- `socket.join(code)`: add a socket to a channel (idempotent). -/
def addChan (members : List String) (sid : String) : List String :=
  if sid ∈ members then members else members ++ [sid]

/-- A message emitted by the server to clients.  `roomCreated` and
`roomJoined` carry the room object the code sends; `errMsg` carries the
literal error string. -/
inductive Msg where
  | roomClosed
  | streamStopped
  | hostDisconnected
  | userLeft (uid : String)
  | roomUpdated (viewerCount : Nat)
  | roomCreated (room : Room)
  | roomJoined (room : Room)
  | userJoined (uid : String)
  | errMsg (text : String)
deriving DecidableEq, Repr

/-- One observable step of a handler: an emission (with the recipient
sockets resolved at emission time) or a registry deletion
(`rooms.delete`). -/
inductive TraceItem where
  | emit (recipients : List String) (m : Msg)
  | delRoom (code : String)
deriving DecidableEq, Repr

/-- Result of `removeUserFromRoom`: the new state, the emissions and
deletions it performed in order, and the room object it returns (`none`
when the room was absent). -/
structure RemoveResult where
  sys : Sys
  trace : List TraceItem
  room : Option Room
deriving Repr

/-- `removeUserFromRoom(roomCode, userId)` (server lines 591-621): filter
the user out of `viewers`; if the user was the host, emit `room:closed` to
the whole channel, empty the channel (every socket leaves), and delete the
room; else if the room is now empty and not streaming, delete it silently;
otherwise store the filtered room.  Returns the (filtered) room object. -/
def removeUserFromRoom (s : Sys) (code uid : String) : RemoveResult :=
  match lookupA s.rooms code with
  | none => ⟨s, [], none⟩
  | some room =>
      let room' := { room with viewers := room.viewers.filter (fun v => v.id ≠ uid) }
      if room.hostId = uid then
        ⟨{ s with rooms := eraseA s.rooms code, channels := setA s.channels code [] },
         [TraceItem.emit (chanMembers s code) Msg.roomClosed, TraceItem.delRoom code],
         some room'⟩
      else if room'.viewers.length = 0 ∧ room.isStreaming = false then
        ⟨{ s with rooms := eraseA s.rooms code },
         [TraceItem.delRoom code], some room'⟩
      else
        ⟨{ s with rooms := setA s.rooms code room' }, [], some room'⟩

/-- The body of the per-room loop of the `disconnect` handler (server lines
904-925): remove the user, then — only if the room still exists — emit
`user:left` and `room:updated`; if the disconnecting user was a host, emit
`stream:stopped` and `host:disconnected` to the room channel as it stands
at that point. -/
def disconnectStep (uid : String) (isHost : Bool)
    (acc : Sys × List TraceItem) (code : String) : Sys × List TraceItem :=
  let r := removeUserFromRoom acc.1 code uid
  match r.room with
  | none => (r.sys, acc.2 ++ r.trace)
  | some room =>
      let tr2 :=
        if (lookupA r.sys.rooms code).isSome then
          [TraceItem.emit (chanMembers r.sys code) (Msg.userLeft uid),
           TraceItem.emit (chanMembers r.sys code) (Msg.roomUpdated room.viewers.length)]
        else []
      let tr3 :=
        if isHost then
          [TraceItem.emit (chanMembers r.sys code) Msg.streamStopped,
           TraceItem.emit (chanMembers r.sys code) Msg.hostDisconnected]
        else []
      (r.sys, acc.2 ++ r.trace ++ tr2 ++ tr3)

/-- The `disconnect` handler (server lines 892-936): look the user up, walk
every channel the socket is in, run `disconnectStep` for each, then delete
the user record. -/
def disconnect (s : Sys) (uid : String) : Sys × List TraceItem :=
  match lookupA s.users uid with
  | none => (s, [])
  | some user =>
      let userRooms := (s.channels.filter (fun p => decide (uid ∈ p.2))).map Prod.fst
      let out := userRooms.foldl (disconnectStep uid user.isHost) (s, [])
      ({ out.1 with users := eraseA out.1.users uid }, out.2)

/-- `s.substring(0, n)`, written over the character list so that the kernel
can evaluate it. -/
def strTake (s : String) (n : Nat) : String := ⟨s.data.take n⟩

/-- `s.toUpperCase()`, written over the character list so that the kernel
can evaluate it. -/
def strUpper (s : String) : String := ⟨s.data.map Char.toUpper⟩

/-- `roomCode.toUpperCase().substring(0, 10)`. -/
def normalizeCode (s : String) : String := strTake (strUpper s) 10

/-- The cleanup step of the `room:join` handler (server lines 719-730): if
the socket already has a user record, leave and deregister from every other
room. -/
def cleanupOldRooms (s : Sys) (sid nc : String) : Sys × List TraceItem :=
  match lookupA s.users sid with
  | none => (s, [])
  | some _ =>
      let oldRooms :=
        ((s.channels.filter (fun p => decide (sid ∈ p.2))).map Prod.fst).filter
          (fun c => decide (c ≠ nc))
      oldRooms.foldl
        (fun acc code =>
          let s1 := { acc.1 with
            channels := setA acc.1.channels code
              ((chanMembers acc.1 code).filter (fun x => decide (x ≠ sid))) }
          let r := removeUserFromRoom s1 code sid
          (r.sys, acc.2 ++ r.trace))
        (s, [])

/-- The `room:join` handler (server lines 699-767): validate, normalize the
code, reject with `Room not found` if absent, clean the socket out of old
rooms, register the (non-host) user, run `addUserToRoom` — rejecting with
`Room is full` on `null` — then join the channel and emit `room:joined`,
`room:updated`, `user:joined` (and `user:joined` again to the host id). -/
def roomJoin (s : Sys) (sid userName roomCode : String) : Sys × List TraceItem :=
  if roomCode = "" ∨ userName = "" ∨ 50 < userName.length then
    (s, [TraceItem.emit [sid] (Msg.errMsg "Invalid room code or name")])
  else
    let nc := normalizeCode roomCode
    match lookupA s.rooms nc with
    | none => (s, [TraceItem.emit [sid] (Msg.errMsg "Room not found")])
    | some room =>
        let cl := cleanupOldRooms s sid nc
        let user : RUser := ⟨sid, strTake userName 50, false⟩
        let s2 := { cl.1 with users := setA cl.1.users sid user }
        match addUserToRoom s2.rooms nc user with
        | none => (s2, cl.2 ++ [TraceItem.emit [sid] (Msg.errMsg "Room is full")])
        | some room' =>
            let s3 := { s2 with rooms := setA s2.rooms nc room' }
            let s4 := { s3 with
              channels := setA s3.channels nc (addChan (chanMembers s3 nc) sid) }
            (s4, cl.2 ++
              [TraceItem.emit [sid] (Msg.roomJoined room'),
               TraceItem.emit (chanMembers s4 nc) (Msg.roomUpdated room'.viewers.length),
               TraceItem.emit ((chanMembers s4 nc).filter (fun x => decide (x ≠ sid)))
                 (Msg.userJoined sid)] ++
              (if room.hostId ≠ "" then
                 [TraceItem.emit [room.hostId] (Msg.userJoined sid)]
               else []))

/-- The `room:create` handler (server lines 643-697): validate the host
name; if a (nonempty) room code was requested, normalize it and — when a
room under that code already exists — take it over by reassigning `hostId`
and `hostName` and re-emitting the existing room; otherwise create a fresh
room under the requested code, or under `fresh` (the next value of the
`generateRoomCode` oracle) when no code was requested. -/
def roomCreate (s : Sys) (sid hostName : String) (roomCode : Option String)
    (maxViewers : Int) (fresh : String) : Sys × List TraceItem :=
  if hostName = "" ∨ 50 < hostName.length then
    (s, [TraceItem.emit [sid] (Msg.errMsg "Invalid host name")])
  else
    let normalized : Option String :=
      match roomCode with
      | none => none
      | some rc => if rc = "" then none else some (normalizeCode rc)
    let hostUser : RUser := ⟨sid, strTake hostName 50, true⟩
    match normalized with
    | some nc =>
        match lookupA s.rooms nc with
        | some existing =>
            let room' := { existing with hostId := sid, hostName := hostName }
            ({ s with rooms := setA s.rooms nc room',
                      users := setA s.users sid hostUser,
                      channels := setA s.channels nc (addChan (chanMembers s nc) sid) },
             [TraceItem.emit [sid] (Msg.roomCreated room')])
        | none =>
            let room := createRoom sid hostName nc maxViewers
            ({ s with users := setA s.users sid hostUser,
                      rooms := setA s.rooms nc room,
                      channels := setA s.channels nc (addChan (chanMembers s nc) sid) },
             [TraceItem.emit [sid] (Msg.roomCreated room)])
    | none =>
        let room := createRoom sid hostName fresh maxViewers
        ({ s with users := setA s.users sid hostUser,
                  rooms := setA s.rooms fresh room,
                  channels := setA s.channels fresh (addChan (chanMembers s fresh) sid) },
         [TraceItem.emit [sid] (Msg.roomCreated room)])

/-- Kind of a relayed WebRTC signal. -/
inductive RelayKind where
  | offer
  | answer
  | iceCandidate
deriving DecidableEq, Repr

/-- The envelope the `webrtc:*` handlers emit: `{ type, from, to, data }`
with `from` set to the sender socket id. -/
structure RelayMsg where
  rtype : RelayKind
  fromId : String
  toId : String
  data : String
deriving DecidableEq, Repr

/-- The `webrtc:offer` / `webrtc:answer` / `webrtc:ice-candidate` handlers
(server lines 812-858): if `to` or `data` is missing or falsy, do nothing;
otherwise emit the envelope addressed to socket `to` with `from` set to the
sender, `data` unchanged.  The handler receives the full server state `s`
but reads none of it — it performs no membership or authorization check. -/
def webrtcForward (s : Sys) (k : RelayKind) (senderId toId data : String) :
    List (String × RelayMsg) :=
  if toId = "" ∨ data = "" then []
  else [(toId, { rtype := k, fromId := senderId, toId := toId, data := data })]

/-- An operation on one room, as the handlers perform it: a `room:join`
(always building a non-host user with the name truncated to 50), a leave
(the `viewers.filter` of `removeUserFromRoom`), or a `room:create` takeover
of an existing room (reassigning host identity only). -/
inductive RoomOp where
  | join (uid userName : String)
  | leave (uid : String)
  | takeover (hid hname : String)
deriving DecidableEq, Repr

/-- Apply one room operation; a rejected join (`addViewer` returning
`null`) leaves the room unchanged, as the handler only emits an error. -/
def roomStep (r : Room) : RoomOp → Room
  | RoomOp.join uid userName => (addViewer r ⟨uid, strTake userName 50, false⟩).getD r
  | RoomOp.leave uid => { r with viewers := r.viewers.filter (fun v => v.id ≠ uid) }
  | RoomOp.takeover hid hname => { r with hostId := hid, hostName := hname }

/-- Apply a sequence of room operations. -/
def roomRun (r : Room) (ops : List RoomOp) : Room :=
  ops.foldl roomStep r

/-- Number of room-closure notifications (`room:closed` or
`host:disconnected`) a socket `v` receives in a trace. -/
def closureCount (v : String) (tr : List TraceItem) : Nat :=
  (tr.filter (fun it =>
    match it with
    | TraceItem.emit rcp m =>
        decide ((m = Msg.roomClosed ∨ m = Msg.hostDisconnected) ∧ v ∈ rcp)
    | TraceItem.delRoom _ => false)).length

/-- True when some emission of `m` occurs strictly before the deletion of
room `code` in the trace. -/
def emitsMsgBeforeDelete (tr : List TraceItem) (m : Msg) (code : String) : Bool :=
  match tr.findIdx? (fun it =>
          match it with
          | TraceItem.emit _ m' => decide (m' = m)
          | TraceItem.delRoom _ => false),
        tr.findIdx? (fun it => decide (it = TraceItem.delRoom code)) with
  | some i, some j => decide (i < j)
  | _, _ => false

/-- True when socket `v` is among the recipients of some emission of `m`. -/
def receivesMsg (v : String) (m : Msg) (tr : List TraceItem) : Bool :=
  tr.any (fun it =>
    match it with
    | TraceItem.emit rcp m' => decide (m' = m ∧ v ∈ rcp)
    | TraceItem.delRoom _ => false)

/-- True of an emission of `room:joined`. -/
def isRoomJoinedEmit : TraceItem → Bool
  | TraceItem.emit _ (Msg.roomJoined _) => true
  | _ => false

/-- True of an emission of an `error` message. -/
def isErrEmit : TraceItem → Bool
  | TraceItem.emit _ (Msg.errMsg _) => true
  | _ => false

/-- An impolite `FixedWebRTCConnection` that has just created and set its
own offer (payload id 1): the glare position of the stream initiator. -/
def glareFixed : FixedConn := ((initFixed false).createOffer 1).1

/-- The remote offer that arrives while `glareFixed` is mid-offer. -/
def glareRemoteOffer : SDesc := ⟨SDPType.offer, 2⟩

/-- A room created with the client-supplied argument `maxViewers = -1`. -/
def negRoom : Room := createRoom "host1" "Host" "CODE1" (-1)

/-- Host user of the concrete disconnect scenarios. -/
def hostU : RUser := ⟨"H1", "Host", true⟩

/-- Viewer user of the concrete disconnect scenarios. -/
def viewU : RUser := ⟨"V1", "Viewer", false⟩

/-- A streaming room with host `H1` and one viewer `V1`. -/
def dRoom : Room :=
  { code := "ROOM01", hostId := "H1", hostName := "Host",
    viewers := [viewU], maxViewers := 10, isStreaming := true }

/-- Server state for the disconnect scenarios: one streaming room whose
channel holds the host and the viewer. -/
def dSys : Sys :=
  { rooms := [("ROOM01", dRoom)],
    users := [("H1", hostU), ("V1", viewU)],
    channels := [("ROOM01", ["H1", "V1"])] }

/-- The full disconnect run of host `H1` on `dSys`. -/
def dOut : Sys × List TraceItem := disconnect dSys "H1"

/-- A room at capacity (`maxViewers = 1`) whose single viewer is `u1`. -/
def fullRoom : Room :=
  { code := "ROOM02", hostId := "h2", hostName := "Host2",
    viewers := [⟨"u1", "U", false⟩], maxViewers := 1, isStreaming := false }

/-- The viewer already present in `fullRoom`, attempting to rejoin. -/
def reUser : RUser := ⟨"u1", "U", false⟩

/-- Scenario state: a room `ROOM1` created with `maxViewers = 1`. -/
def oneSeat : Sys := (roomCreate sys0 "h" "Host" (some "ROOM1") 1 "FRESH1").1

/-- First join of the `maxViewers = 1` scenario. -/
def oneSeatJoin1 : Sys × List TraceItem := roomJoin oneSeat "v1" "Alice" "ROOM1"

/-- Second join (different user) of the `maxViewers = 1` scenario. -/
def oneSeatJoin2 : Sys × List TraceItem := roomJoin oneSeatJoin1.1 "v2" "Bob" "ROOM1"

/-- An existing room whose recorded host `OLDHOST` is no longer connected. -/
def orphanRoom : Room :=
  { code := "ABC123", hostId := "OLDHOST", hostName := "Old",
    viewers := [⟨"w1", "W", false⟩], maxViewers := 5, isStreaming := false }

/-- Server state holding `orphanRoom` with no user record for its host. -/
def orphanSys : Sys :=
  { rooms := [("ABC123", orphanRoom)],
    users := [("w1", ⟨"w1", "W", false⟩)],
    channels := [("ABC123", ["w1"])] }

/-- A room with spare capacity whose viewer list already contains `reUser`:
used to exercise the idempotent-rejoin path. -/
def rejoinRoom : Room :=
  { code := "R3", hostId := "h3", hostName := "Host3",
    viewers := [reUser], maxViewers := 5, isStreaming := false }

/-! ## Association-list lemmas -/

theorem lookupA_eraseA_self {α : Type} (l : List (String × α)) (k : String) :
    lookupA (eraseA l k) k = none := by
  induction l with
  | nil => rfl
  | cons p t ih =>
      obtain ⟨a, b⟩ := p
      by_cases h : a = k
      · simpa [eraseA, h] using ih
      · simp [eraseA, lookupA, h, ih]

theorem lookupA_setA_self {α : Type} (l : List (String × α)) (k : String) (v : α) :
    lookupA (setA l k v) k = some v := by
  induction l with
  | nil => simp [setA, lookupA]
  | cons p t ih =>
      obtain ⟨a, b⟩ := p
      by_cases h : a = k
      · simp [setA, h, lookupA]
      · simp [setA, lookupA, h, ih]

theorem lookupA_setA_isSome {α : Type} (l : List (String × α)) (k k' : String) (v w : α)
    (h : lookupA l k = some w) :
    (lookupA (setA l k v) k').isSome = (lookupA l k').isSome := by
  induction l with
  | nil => simp [lookupA] at h
  | cons p t ih =>
      obtain ⟨a, b⟩ := p
      by_cases hak : a = k
      · subst hak
        by_cases hk' : a = k'
        · simp [setA, lookupA, hk']
        · simp [setA, lookupA, hk']
      · simp only [lookupA, if_neg hak] at h
        by_cases hk' : a = k'
        · subst hk'
          simp [setA, lookupA, hak]
        · simp [setA, lookupA, hak, hk', ih h]

/-! ## Claim C8 — maxViewers clamping -/

/-- Claim C8, refuted at the concrete argument `maxViewers = 0`: the claim
asserts that the created room's `maxViewers` lies in `[1, 10]` for every
argument including 0, but `Math.min(0, 10) = 0`, outside the interval. -/
theorem C8_counterexample :
    ¬ (1 ≤ (createRoom "h" "Host" "CODE" 0).maxViewers ∧
       (createRoom "h" "Host" "CODE" 0).maxViewers ≤ 10) := by
  decide

/-- Claim C8 (amended): `createRoom` caps `maxViewers` above at 10
(`Math.min(maxViewers, 10)`), but applies no lower clamp — every argument
at most 10, including 0 and negative values, is stored unchanged. -/
theorem C8_theorem (hostId hostName code : String) (m : Int) :
    (createRoom hostId hostName code m).maxViewers ≤ 10 ∧
    (m ≤ 10 → (createRoom hostId hostName code m).maxViewers = m) ∧
    (10 ≤ m → (createRoom hostId hostName code m).maxViewers = 10) := by
  refine ⟨min_le_right m 10, fun h => min_eq_left h, fun h => min_eq_right h⟩

/-- Witness for `C8_theorem` at `maxViewers = 3`. -/
theorem C8_witness : (createRoom "h" "Host" "CODE" 3).maxViewers = 3 := by
  have h := C8_theorem "h" "Host" "CODE" 3
  exact h.2.1 (by decide)

/-! ## Claim C3 — capacity invariant -/

/-- Claim C3, refuted at creation with the argument `maxViewers = -1`: the
created room (a reachable state, before any join or leave) already violates
`viewers.length <= maxViewers`, since `Math.min(-1, 10) = -1` while the
viewer list is empty. -/
theorem C3_counterexample :
    ¬ (((roomRun negRoom []).viewers.length : Int) ≤ (roomRun negRoom []).maxViewers) := by
  decide

theorem addViewer_capacity {r : Room} {u : RUser} {r' : Room}
    (hu : u.isHost = false)
    (inv : (r.viewers.length : Int) ≤ r.maxViewers)
    (h : addViewer r u = some r') :
    (r'.viewers.length : Int) ≤ r'.maxViewers := by
  unfold addViewer at h
  split at h
  · exact Option.noConfusion h
  next hcond =>
    have hlt : (r.viewers.length : Int) < r.maxViewers := by
      rcases lt_or_le (r.viewers.length : Int) r.maxViewers with h1 | h1
      · exact h1
      · exact absurd ⟨h1, hu⟩ hcond
    split at h
    · cases h
      exact inv
    · cases h
      simp only [List.length_append, List.length_cons, List.length_nil]
      push_cast
      omega

theorem roomStep_capacity {r : Room} (inv : (r.viewers.length : Int) ≤ r.maxViewers)
    (op : RoomOp) :
    ((roomStep r op).viewers.length : Int) ≤ (roomStep r op).maxViewers := by
  cases op with
  | join uid userName =>
      simp only [roomStep]
      cases haddv : addViewer r ⟨uid, strTake userName 50, false⟩ with
      | none => simpa using inv
      | some r' =>
          simpa using addViewer_capacity rfl inv haddv
  | leave uid =>
      simp only [roomStep]
      exact le_trans (by exact_mod_cast List.length_filter_le _ _) inv
  | takeover hid hname =>
      simpa [roomStep] using inv

theorem roomRun_capacity (ops : List RoomOp) (r : Room)
    (inv : (r.viewers.length : Int) ≤ r.maxViewers) :
    ((roomRun r ops).viewers.length : Int) ≤ (roomRun r ops).maxViewers := by
  induction ops generalizing r with
  | nil => exact inv
  | cons op t ih => exact ih (roomStep r op) (roomStep_capacity inv op)

/-- Claim C3 (amended): for every creation argument `maxViewers ≥ 0` — in
particular the default 10 — and every sequence of join, leave and
host-takeover operations, `viewers.length ≤ maxViewers` holds in every
reachable state.  (With a negative argument the invariant already fails at
creation, as `C3_counterexample` shows.) -/
theorem C3_theorem (hostId hostName code : String) (m : Int) (ops : List RoomOp)
    (hm : 0 ≤ m) :
    ((roomRun (createRoom hostId hostName code m) ops).viewers.length : Int) ≤
      (roomRun (createRoom hostId hostName code m) ops).maxViewers := by
  refine roomRun_capacity ops _ ?_
  simp only [createRoom, List.length_nil, Nat.cast_zero]
  exact le_min hm (by norm_num)

/-- Witness for `C3_theorem`: a room created with `maxViewers = 3` after a
join, a duplicate join, another join and a leave. -/
theorem C3_witness :
    ((roomRun (createRoom "h" "Host" "CODE" 3)
        [RoomOp.join "a" "A", RoomOp.join "a" "A", RoomOp.join "b" "B",
         RoomOp.leave "a"]).viewers.length : Int) ≤
      (roomRun (createRoom "h" "Host" "CODE" 3)
        [RoomOp.join "a" "A", RoomOp.join "a" "A", RoomOp.join "b" "B",
         RoomOp.leave "a"]).maxViewers :=
  C3_theorem "h" "Host" "CODE" 3 _ (by decide)

/-! ## Claim C9 — idempotent rejoin -/

/-- Claim C9: whenever a join with a user whose id already occurs in
`viewers` succeeds, the viewer list is returned unchanged — same elements,
same order (`addUserToRoom` finds the existing entry and does not push). -/
theorem C9_theorem (room : Room) (u : RUser) (r' : Room)
    (hmem : u.id ∈ room.viewers.map RUser.id)
    (h : addViewer room u = some r') :
    r'.viewers = room.viewers := by
  unfold addViewer at h
  split at h
  · exact Option.noConfusion h
  · split at h
    · cases h
      rfl
    next hex =>
      exfalso
      apply hex
      rcases List.mem_map.mp hmem with ⟨v, hv, hid⟩
      exact List.any_eq_true.mpr ⟨v, hv, decide_eq_true hid⟩

/-- Witness for `C9_theorem`: `u1` rejoins `rejoinRoom`, which already
lists it. -/
theorem C9_witness : rejoinRoom.viewers = rejoinRoom.viewers :=
  C9_theorem rejoinRoom reUser rejoinRoom (by decide) (by decide)

/-! ## Claim C6 — RoomFull rejection -/

/-- Claim C6, refuted: in `fullRoom` (capacity 1, already holding viewer
`u1`) the rejoin of `u1` itself is rejected (`addUserToRoom` returns
`null`, so the handler emits `Room is full`), although the claim asserts a
user whose id is already in `viewers` is admitted even at capacity — the
code checks capacity before the reconnection check. -/
theorem C6_counterexample :
    reUser.id ∈ fullRoom.viewers.map RUser.id ∧
    fullRoom.maxViewers ≤ (fullRoom.viewers.length : Int) ∧
    addViewer fullRoom reUser = none := by
  decide

/-- Claim C6 (amended): `joinRoom` rejects with `Room is full` exactly when
`viewers.length >= maxViewers` and the joining user is not a host — even
for a reconnecting existing viewer, since the capacity check precedes the
reconnection check.  The `maxViewers = 1` scenario stands: the first join
succeeds (`room:joined` emitted, no error) and a second join by a different
user is answered with exactly `error: Room is full`. -/
theorem C6_theorem :
    (∀ (room : Room) (u : RUser), u.isHost = false →
       (addViewer room u = none ↔ room.maxViewers ≤ (room.viewers.length : Int))) ∧
    (oneSeatJoin1.2.any isRoomJoinedEmit = true ∧
     oneSeatJoin1.2.any isErrEmit = false) ∧
    oneSeatJoin2.2 = [TraceItem.emit ["v2"] (Msg.errMsg "Room is full")] := by
  refine ⟨?_, by decide, by decide⟩
  intro room u hu
  constructor
  · intro h
    unfold addViewer at h
    split at h
    next hc => exact hc.1
    · split at h <;> exact Option.noConfusion h
  · intro hfull
    unfold addViewer
    rw [if_pos ⟨hfull, hu⟩]

/-- Witness for `C6_theorem`: a fresh (non-member) user is rejected from
the full room. -/
theorem C6_witness : addViewer fullRoom ⟨"zz", "Z", false⟩ = none :=
  (C6_theorem.1 fullRoom ⟨"zz", "Z", false⟩ rfl).mpr (by decide)

/-! ## Claim C10 — authorization-free relay -/

/-- Claim C10: the `webrtc:*` relay handlers perform no room-membership or
authorization check — the forwarded envelopes do not depend on the server
state at all; with both fields non-falsy the envelope is forwarded to `to`
with `from` set to the sender and `data` unchanged, and with either field
missing or falsy nothing is forwarded. -/
theorem C10_theorem (s s' : Sys) (k : RelayKind) (senderId toId data : String) :
    (webrtcForward s k senderId toId data = webrtcForward s' k senderId toId data) ∧
    (toId ≠ "" → data ≠ "" →
       webrtcForward s k senderId toId data =
         [(toId, { rtype := k, fromId := senderId, toId := toId, data := data })]) ∧
    ((toId = "" ∨ data = "") → webrtcForward s k senderId toId data = []) := by
  refine ⟨rfl, fun h1 h2 => ?_, fun h => ?_⟩
  · simp [webrtcForward, h1, h2]
  · simp [webrtcForward, h]

/-- Witness for `C10_theorem`: an offer between two sockets sharing no room
in the empty server state is still forwarded verbatim. -/
theorem C10_witness :
    webrtcForward sys0 RelayKind.offer "A" "B" "sdp-data" =
      [("B", { rtype := RelayKind.offer, fromId := "A", toId := "B",
               data := "sdp-data" })] :=
  (C10_theorem sys0 dSys RelayKind.offer "A" "B" "sdp-data").2.1
    (by decide) (by decide)

/-! ## Claim C2 — ICE candidate buffering -/

theorem FixedConn.processPending_eq (c : FixedConn) :
    c.processPendingCandidates =
      { c with applied := c.applied ++ c.pendingCandidates,
               pendingCandidates := [] } := by
  unfold FixedConn.processPendingCandidates
  split
  · rfl
  next h =>
    have hnil : c.pendingCandidates = [] := by
      cases hc : c.pendingCandidates with
      | nil => rfl
      | cons a t => rw [hc] at h; simp at h
    cases c
    simp_all

theorem SimpleConn.processBuffer_eq (c : SimpleConn) :
    c.processIceCandidateBuffer =
      { c with applied := c.applied ++ c.iceCandidateBuffer,
               iceCandidateBuffer := [] } := by
  unfold SimpleConn.processIceCandidateBuffer
  split
  · rfl
  next h =>
    have hnil : c.iceCandidateBuffer = [] := by
      cases hc : c.iceCandidateBuffer with
      | nil => rfl
      | cons a t => rw [hc] at h; simp at h
    cases c
    simp_all

theorem fixedRun_cands_buffered (cs : List Nat) (c : FixedConn)
    (h : c.remoteDescription = none) :
    FixedConn.run c (cs.map NegEvent.cand) =
      { c with pendingCandidates := c.pendingCandidates ++ cs } := by
  induction cs generalizing c with
  | nil => simp [FixedConn.run]
  | cons x t ih =>
      have hstep : FixedConn.step c (NegEvent.cand x) =
          { c with pendingCandidates := c.pendingCandidates ++ [x] } := by
        simp [FixedConn.step, FixedConn.addIceCandidate, h]
      have := ih { c with pendingCandidates := c.pendingCandidates ++ [x] } h
      simp only [List.map_cons, FixedConn.run, List.foldl_cons] at *
      rw [hstep, this]
      simp

theorem fixedRun_cands_applied (cs : List Nat) (c : FixedConn) (d : SDesc)
    (h : c.remoteDescription = some d) :
    FixedConn.run c (cs.map NegEvent.cand) =
      { c with applied := c.applied ++ cs } := by
  induction cs generalizing c with
  | nil => simp [FixedConn.run]
  | cons x t ih =>
      have hstep : FixedConn.step c (NegEvent.cand x) =
          { c with applied := c.applied ++ [x] } := by
        simp [FixedConn.step, FixedConn.addIceCandidate, h]
      have := ih { c with applied := c.applied ++ [x] } h
      simp only [List.map_cons, FixedConn.run, List.foldl_cons] at *
      rw [hstep, this]
      simp

theorem simpleRun_cands_buffered (cs : List Nat) (c : SimpleConn)
    (h : c.remoteDescriptionSet = false) :
    SimpleConn.run c (cs.map NegEvent.cand) =
      { c with iceCandidateBuffer := c.iceCandidateBuffer ++ cs } := by
  induction cs generalizing c with
  | nil => simp [SimpleConn.run]
  | cons x t ih =>
      have hstep : SimpleConn.step c (NegEvent.cand x) =
          { c with iceCandidateBuffer := c.iceCandidateBuffer ++ [x] } := by
        simp [SimpleConn.step, SimpleConn.addIceCandidate, h]
      have := ih { c with iceCandidateBuffer := c.iceCandidateBuffer ++ [x] } h
      simp only [List.map_cons, SimpleConn.run, List.foldl_cons] at *
      rw [hstep, this]
      simp

theorem simpleRun_cands_applied (cs : List Nat) (c : SimpleConn)
    (h : c.remoteDescriptionSet = true) :
    SimpleConn.run c (cs.map NegEvent.cand) =
      { c with applied := c.applied ++ cs } := by
  induction cs generalizing c with
  | nil => simp [SimpleConn.run]
  | cons x t ih =>
      have hstep : SimpleConn.step c (NegEvent.cand x) =
          { c with applied := c.applied ++ [x] } := by
        simp [SimpleConn.step, SimpleConn.addIceCandidate, h]
      have := ih { c with applied := c.applied ++ [x] } h
      simp only [List.map_cons, SimpleConn.run, List.foldl_cons] at *
      rw [hstep, this]
      simp

theorem fixedHandleOffer_drains (c : FixedConn) (d : SDesc) :
    ((c.handleOffer d).1).pendingCandidates = [] ∧
    ((c.handleOffer d).1).applied = c.applied ++ c.pendingCandidates ∧
    ((c.handleOffer d).1).remoteDescription = some d := by
  obtain ⟨t, n⟩ := d
  cases t <;>
    simp [FixedConn.handleOffer, FixedConn.processPending_eq]

theorem simpleHandleOffer_drains (c : SimpleConn) (d : SDesc)
    (hm : c.makingOffer = false) (hs : c.signalingState = SigState.stable) :
    ((c.handleOffer d).1).iceCandidateBuffer = [] ∧
    ((c.handleOffer d).1).applied = c.applied ++ c.iceCandidateBuffer ∧
    ((c.handleOffer d).1).remoteDescriptionSet = true := by
  obtain ⟨t, n⟩ := d
  cases t <;>
    simp [SimpleConn.handleOffer, SimpleConn.processBuffer_eq, hm, hs]

/-- Claim C2: on both connection classes, for every sequence of candidates
`cs` received before the (first) remote description `d` and every sequence
`cs'` received after it: while no remote description has been applied the
pending buffer holds exactly `cs` in receipt order and nothing has been
applied; after `d` arrives the buffered candidates are applied in receipt
order followed immediately by each later candidate, so the applied sequence
is exactly `cs ++ cs'` and the buffer is empty — nothing dropped, order
preserved. -/
theorem C2_theorem (polite : Bool) (cs cs' : List Nat) (d : SDesc) :
    ((FixedConn.run (initFixed polite) (cs.map NegEvent.cand)).pendingCandidates = cs ∧
     (FixedConn.run (initFixed polite) (cs.map NegEvent.cand)).applied = []) ∧
    ((FixedConn.run (initFixed polite)
        (cs.map NegEvent.cand ++ NegEvent.desc d :: cs'.map NegEvent.cand)).applied =
        cs ++ cs' ∧
     (FixedConn.run (initFixed polite)
        (cs.map NegEvent.cand ++ NegEvent.desc d :: cs'.map NegEvent.cand)).pendingCandidates =
        []) ∧
    ((SimpleConn.run (initSimple polite) (cs.map NegEvent.cand)).iceCandidateBuffer = cs ∧
     (SimpleConn.run (initSimple polite) (cs.map NegEvent.cand)).applied = []) ∧
    ((SimpleConn.run (initSimple polite)
        (cs.map NegEvent.cand ++ NegEvent.desc d :: cs'.map NegEvent.cand)).applied =
        cs ++ cs' ∧
     (SimpleConn.run (initSimple polite)
        (cs.map NegEvent.cand ++ NegEvent.desc d :: cs'.map NegEvent.cand)).iceCandidateBuffer =
        []) := by
  have hfmid : FixedConn.run (initFixed polite) (cs.map NegEvent.cand) =
      (⟨polite, none, none, cs, [], false, false⟩ : FixedConn) := by
    simpa [initFixed] using fixedRun_cands_buffered cs (initFixed polite) rfl
  have hsmid : SimpleConn.run (initSimple polite) (cs.map NegEvent.cand) =
      (⟨polite, false, false, SigState.stable, none, none, false, cs, []⟩ : SimpleConn) := by
    simpa [initSimple] using simpleRun_cands_buffered cs (initSimple polite) rfl
  have hfsplit : FixedConn.run (initFixed polite)
      (cs.map NegEvent.cand ++ NegEvent.desc d :: cs'.map NegEvent.cand) =
      FixedConn.run
        (FixedConn.step (FixedConn.run (initFixed polite) (cs.map NegEvent.cand))
          (NegEvent.desc d))
        (cs'.map NegEvent.cand) := by
    simp [FixedConn.run, List.foldl_append]
  have hssplit : SimpleConn.run (initSimple polite)
      (cs.map NegEvent.cand ++ NegEvent.desc d :: cs'.map NegEvent.cand) =
      SimpleConn.run
        (SimpleConn.step (SimpleConn.run (initSimple polite) (cs.map NegEvent.cand))
          (NegEvent.desc d))
        (cs'.map NegEvent.cand) := by
    simp [SimpleConn.run, List.foldl_append]
  refine ⟨⟨by rw [hfmid], by rw [hfmid]⟩, ?_, ⟨by rw [hsmid], by rw [hsmid]⟩, ?_⟩
  · -- Fixed: full run
    rw [hfsplit, hfmid]
    obtain ⟨hp, ha, hr⟩ :=
      fixedHandleOffer_drains (⟨polite, none, none, cs, [], false, false⟩ : FixedConn) d
    have happ := fixedRun_cands_applied cs'
        (FixedConn.step (⟨polite, none, none, cs, [], false, false⟩ : FixedConn)
          (NegEvent.desc d)) d hr
    rw [happ]
    refine ⟨?_, ?_⟩
    · show (FixedConn.handleOffer _ d).1.applied ++ cs' = cs ++ cs'
      rw [ha]
      simp
    · exact hp
  · -- Simple: full run
    rw [hssplit, hsmid]
    obtain ⟨hp, ha, hr⟩ :=
      simpleHandleOffer_drains
        (⟨polite, false, false, SigState.stable, none, none, false, cs, []⟩ : SimpleConn) d
        rfl rfl
    have happ := simpleRun_cands_applied cs'
        (SimpleConn.step
          (⟨polite, false, false, SigState.stable, none, none, false, cs, []⟩ : SimpleConn)
          (NegEvent.desc d)) hr
    rw [happ]
    refine ⟨?_, ?_⟩
    · show (SimpleConn.handleOffer _ d).1.applied ++ cs' = cs ++ cs'
      rw [ha]
      simp
    · exact hp

/-! ## Claim C1 — glare resolution -/

/-- Claim C1, refuted on `FixedWebRTCConnection` (the class the room page
instantiates): an impolite connection that is mid-offer (it has created and
set a local offer and `isNegotiating` is still true) does not ignore an
incoming remote offer — `handleOffer` applies it and returns an answer,
although the claim says the impolite peer returns no answer. -/
theorem C1_counterexample :
    glareFixed.isPolite = false ∧
    glareFixed.isNegotiating = true ∧
    glareFixed.localDescription = some ⟨SDPType.offer, 1⟩ ∧
    ¬ ((glareFixed.handleOffer glareRemoteOffer).2 = none) := by
  decide

/-- Claim C1 (amended): only `SimpleWebRTCConnection` implements the glare
rule — an impolite instance receiving an offer while mid-offer
(`makingOffer` or a non-stable signaling state) ignores it, returns no
answer and changes no negotiation state, while a polite instance always
applies the remote offer (discarding its own pending local offer) and
returns the answer to it; `FixedWebRTCConnection`, the class the
application uses, has no glare handling and answers every incoming offer
regardless of role and of being mid-offer. -/
theorem C1_theorem :
    (∀ (c : SimpleConn) (d : SDesc), d.type = SDPType.offer →
       c.isPolite = false →
       (c.makingOffer = true ∨ c.signalingState ≠ SigState.stable) →
       (c.handleOffer d).2 = none ∧
       ((c.handleOffer d).1).remoteDescription = c.remoteDescription ∧
       ((c.handleOffer d).1).localDescription = c.localDescription ∧
       ((c.handleOffer d).1).applied = c.applied) ∧
    (∀ (c : SimpleConn) (d : SDesc), d.type = SDPType.offer →
       c.isPolite = true →
       (c.handleOffer d).2 = some (answerTo d) ∧
       ((c.handleOffer d).1).remoteDescription = some d ∧
       ((c.handleOffer d).1).localDescription = some (answerTo d)) ∧
    (∀ (c : FixedConn) (d : SDesc), d.type = SDPType.offer →
       (c.handleOffer d).2 = some (answerTo d)) := by
  refine ⟨?_, ?_, ?_⟩
  · intro c d hd hpol hmid
    obtain ⟨t, n⟩ := d
    cases hd
    have hcond : c.isPolite = false ∧
        ((SDesc.mk SDPType.offer n).type = SDPType.offer ∧
         (c.makingOffer = true ∨ c.signalingState ≠ SigState.stable)) :=
      ⟨hpol, rfl, hmid⟩
    simp [SimpleConn.handleOffer, hcond]
  · intro c d hd hpol
    obtain ⟨t, n⟩ := d
    cases hd
    simp [SimpleConn.handleOffer, hpol, SimpleConn.processBuffer_eq]
  · intro c d hd
    obtain ⟨t, n⟩ := d
    cases hd
    simp [FixedConn.handleOffer]

/-- Witness for `C1_theorem`: an impolite `SimpleWebRTCConnection` mid-offer
ignores the colliding offer; a polite one answers it; the impolite
`FixedWebRTCConnection` `glareFixed` answers it. -/
theorem C1_witness :
    ((SimpleConn.handleOffer ((initSimple false).createOffer 1).1 ⟨SDPType.offer, 2⟩).2
      = none) ∧
    ((SimpleConn.handleOffer ((initSimple true).createOffer 1).1 ⟨SDPType.offer, 2⟩).2
      = some (answerTo ⟨SDPType.offer, 2⟩)) ∧
    ((FixedConn.handleOffer glareFixed glareRemoteOffer).2
      = some (answerTo glareRemoteOffer)) :=
  ⟨(C1_theorem.1 ((initSimple false).createOffer 1).1 ⟨SDPType.offer, 2⟩ rfl rfl
      (Or.inr (by decide))).1,
   (C1_theorem.2.1 ((initSimple true).createOffer 1).1 ⟨SDPType.offer, 2⟩ rfl rfl).1,
   C1_theorem.2.2 glareFixed glareRemoteOffer rfl⟩

/-! ## Host disconnect (claims C4 and C5) -/

/-- What the `disconnect` handler does when a host `h` whose only channel is
`code` disconnects: `removeUserFromRoom` emits `room:closed` to the whole
channel, empties the channel and deletes the room; the handler then skips
`user:left` / `room:updated` (the room is gone) and emits `stream:stopped`
and `host:disconnected` to the now-empty channel, and finally deletes the
user record. -/
theorem disconnect_host_spec (s : Sys) (code h : String) (room : Room) (hu : RUser)
    (hroom : lookupA s.rooms code = some room) (hhostid : room.hostId = h)
    (huser : lookupA s.users h = some hu) (hisHost : hu.isHost = true)
    (hchan : (s.channels.filter (fun p => decide (h ∈ p.2))).map Prod.fst = [code]) :
    disconnect s h =
      ({ rooms := eraseA s.rooms code, users := eraseA s.users h,
         channels := setA s.channels code [] },
       [TraceItem.emit (chanMembers s code) Msg.roomClosed, TraceItem.delRoom code,
        TraceItem.emit [] Msg.streamStopped, TraceItem.emit [] Msg.hostDisconnected]) := by
  unfold disconnect
  rw [huser, hchan]
  have hrm : removeUserFromRoom s code h =
      ⟨{ s with rooms := eraseA s.rooms code, channels := setA s.channels code [] },
       [TraceItem.emit (chanMembers s code) Msg.roomClosed, TraceItem.delRoom code],
       some { room with viewers := room.viewers.filter (fun v => v.id ≠ h) }⟩ := by
    unfold removeUserFromRoom
    rw [hroom]
    simp [hhostid]
  have hstep : disconnectStep h hu.isHost (s, []) code =
      ({ s with rooms := eraseA s.rooms code, channels := setA s.channels code [] },
       [TraceItem.emit (chanMembers s code) Msg.roomClosed, TraceItem.delRoom code,
        TraceItem.emit [] Msg.streamStopped, TraceItem.emit [] Msg.hostDisconnected]) := by
    unfold disconnectStep
    rw [hrm]
    have hgone : lookupA (eraseA s.rooms code) code = none := lookupA_eraseA_self _ _
    have hempty : chanMembers
        { s with rooms := eraseA s.rooms code, channels := setA s.channels code [] }
        code = [] := by
      simp [chanMembers, lookupA_setA_self]
    simp [hgone, hempty, hisHost]
  simp only [List.foldl_cons, List.foldl_nil, hstep]

/-- Claim C4, refuted at the concrete state `dSys` (streaming room, host
`H1`, remaining viewer `V1`): the claim requires `stream:stopped` to be
broadcast before the room record is deleted and hence observed by remaining
viewers, but in the disconnect trace `stream:stopped` is emitted after the
deletion and `V1` never receives it. -/
theorem C4_counterexample :
    ¬ (emitsMsgBeforeDelete dOut.2 Msg.streamStopped "ROOM01" = true ∧
       receivesMsg "V1" Msg.streamStopped dOut.2 = true) := by
  decide

/-- Claim C4 (amended): on host disconnect the supervisor removes the user
via the registry and broadcasts `room:closed` to every member of the
channel before the room record is deleted; `stream:stopped` and
`host:disconnected` are emitted only after the deletion, to the
already-emptied channel, so they reach no remaining member.  Viewers still
cannot observe the room as streaming afterwards: they received
`room:closed` and the room record is gone. -/
theorem C4_theorem (s : Sys) (code h : String) (room : Room) (hu : RUser)
    (hroom : lookupA s.rooms code = some room) (hhostid : room.hostId = h)
    (huser : lookupA s.users h = some hu) (his : hu.isHost = true)
    (hchan : (s.channels.filter (fun p => decide (h ∈ p.2))).map Prod.fst = [code]) :
    (disconnect s h).2 =
      [TraceItem.emit (chanMembers s code) Msg.roomClosed, TraceItem.delRoom code,
       TraceItem.emit [] Msg.streamStopped, TraceItem.emit [] Msg.hostDisconnected] ∧
    lookupA (disconnect s h).1.rooms code = none ∧
    lookupA (disconnect s h).1.users h = none := by
  rw [disconnect_host_spec s code h room hu hroom hhostid huser his hchan]
  exact ⟨rfl, lookupA_eraseA_self _ _, lookupA_eraseA_self _ _⟩

/-- Witness for `C4_theorem` at the concrete state `dSys`. -/
theorem C4_witness :
    dOut.2 =
      [TraceItem.emit (chanMembers dSys "ROOM01") Msg.roomClosed,
       TraceItem.delRoom "ROOM01",
       TraceItem.emit [] Msg.streamStopped, TraceItem.emit [] Msg.hostDisconnected] ∧
    lookupA dOut.1.rooms "ROOM01" = none := by
  obtain ⟨h1, h2, -⟩ := C4_theorem dSys "ROOM01" "H1" dRoom hostU (by decide) (by decide)
    (by decide) (by decide) (by decide)
  exact ⟨h1, h2⟩

/-- The early-rejection path of `room:join`: when the normalized room code
is absent from the registry, the handler emits only `Room not found` and
mutates nothing. -/
theorem roomJoin_room_not_found (s : Sys) (sid userName code : String)
    (hn1 : userName ≠ "") (hn2 : userName.length ≤ 50) (hcode : code ≠ "")
    (hnorm : normalizeCode code = code)
    (hnone : lookupA s.rooms code = none) :
    roomJoin s sid userName code =
      (s, [TraceItem.emit [sid] (Msg.errMsg "Room not found")]) := by
  have hlen : ¬ (50 < userName.length) := by omega
  simp [roomJoin, hcode, hn1, hlen, hnorm, hnone]

/-- Claim C5: when the host of a room disconnects, every remaining channel
member receives exactly one room-closure notification (the `room:closed`
emitted by `removeUserFromRoom`; `host:disconnected` goes to the emptied
channel and reaches no one), the room record is deleted, and a subsequent
`room:join` naming the (normalized) code is rejected with `Room not found`
leaving the state untouched. -/
theorem C5_theorem (s : Sys) (code h v : String) (room : Room) (hu : RUser)
    (hroom : lookupA s.rooms code = some room) (hhostid : room.hostId = h)
    (huser : lookupA s.users h = some hu) (his : hu.isHost = true)
    (hchan : (s.channels.filter (fun p => decide (h ∈ p.2))).map Prod.fst = [code])
    (hv : v ∈ chanMembers s code)
    (hcode : code ≠ "") (hnorm : normalizeCode code = code) :
    closureCount v (disconnect s h).2 = 1 ∧
    lookupA (disconnect s h).1.rooms code = none ∧
    (∀ sid userName : String, userName ≠ "" → userName.length ≤ 50 →
       roomJoin (disconnect s h).1 sid userName code =
         ((disconnect s h).1,
          [TraceItem.emit [sid] (Msg.errMsg "Room not found")])) := by
  have hd := disconnect_host_spec s code h room hu hroom hhostid huser his hchan
  have hrooms : lookupA (disconnect s h).1.rooms code = none := by
    rw [hd]
    exact lookupA_eraseA_self _ _
  refine ⟨?_, hrooms, ?_⟩
  · rw [hd]
    simp [closureCount, List.filter, hv]
  · intro sid userName hn1 hn2
    exact roomJoin_room_not_found _ sid userName code hn1 hn2 hcode hnorm hrooms

/-- Witness for `C5_theorem` at the concrete state `dSys`: viewer `V1`
receives exactly one closure notification and a later join is refused. -/
theorem C5_witness :
    closureCount "V1" (disconnect dSys "H1").2 = 1 ∧
    lookupA (disconnect dSys "H1").1.rooms "ROOM01" = none ∧
    roomJoin (disconnect dSys "H1").1 "X1" "Nina" "ROOM01" =
      ((disconnect dSys "H1").1,
       [TraceItem.emit ["X1"] (Msg.errMsg "Room not found")]) := by
  obtain ⟨h1, h2, h3⟩ := C5_theorem dSys "ROOM01" "H1" "V1" dRoom hostU (by decide)
    (by decide) (by decide) (by decide) (by decide) (by decide) (by decide) (by decide)
  exact ⟨h1, h2, h3 "X1" "Nina" (by decide) (by decide)⟩

/-! ## Claim C7 — host takeover on room:create -/

/-- Claim C7: a `room:create` whose requested code names an existing room —
in particular one with no connected host — reuses that room: `hostId` and
`hostName` are reassigned to the caller, the viewers are kept intact, the
existing room is re-emitted as `room:created`, and no room is created or
removed; a fresh room under the requested code is created exactly when no
room with that code exists. -/
theorem C7_theorem (s : Sys) (sid hostName nc fresh : String) (m : Int)
    (existing : Room)
    (hn1 : hostName ≠ "") (hn2 : hostName.length ≤ 50)
    (hnc : nc ≠ "") (hnorm : normalizeCode nc = nc)
    (hnohost : lookupA s.users existing.hostId = none) :
    (lookupA s.rooms nc = some existing →
       lookupA (roomCreate s sid hostName (some nc) m fresh).1.rooms nc =
         some { existing with hostId := sid, hostName := hostName } ∧
       ({ existing with hostId := sid, hostName := hostName } : Room).viewers =
         existing.viewers ∧
       (roomCreate s sid hostName (some nc) m fresh).2 =
         [TraceItem.emit [sid]
           (Msg.roomCreated { existing with hostId := sid, hostName := hostName })] ∧
       (∀ k, (lookupA (roomCreate s sid hostName (some nc) m fresh).1.rooms k).isSome =
          (lookupA s.rooms k).isSome)) ∧
    (lookupA s.rooms nc = none →
       lookupA (roomCreate s sid hostName (some nc) m fresh).1.rooms nc =
         some (createRoom sid hostName nc m)) := by
  have hlen : ¬ (50 < hostName.length) := by omega
  constructor
  · intro hex
    refine ⟨?_, rfl, ?_, fun k => ?_⟩
    · simp only [roomCreate, hn1, hlen, hnc, hnorm, hex, false_or, if_false]
      exact lookupA_setA_self _ _ _
    · simp only [roomCreate, hn1, hlen, hnc, hnorm, hex, false_or, if_false]
    · simp only [roomCreate, hn1, hlen, hnc, hnorm, hex, false_or, if_false]
      exact lookupA_setA_isSome s.rooms nc k _ existing hex
  · intro hnone
    simp only [roomCreate, hn1, hlen, hnc, hnorm, hnone, false_or, if_false]
    exact lookupA_setA_self _ _ _

/-- Witness for `C7_theorem`: `NEWHOST` reclaims the orphaned room
`ABC123`; the room is reused with its viewer intact. -/
theorem C7_witness :
    lookupA (roomCreate orphanSys "NEWHOST" "NewName" (some "ABC123") 5 "F").1.rooms
      "ABC123" =
      some { orphanRoom with hostId := "NEWHOST", hostName := "NewName" } ∧
    (roomCreate orphanSys "NEWHOST" "NewName" (some "ABC123") 5 "F").2 =
      [TraceItem.emit ["NEWHOST"]
        (Msg.roomCreated { orphanRoom with hostId := "NEWHOST", hostName := "NewName" })] := by
  obtain ⟨h1, -, h3, -⟩ :=
    (C7_theorem orphanSys "NEWHOST" "NewName" "ABC123" "F" 5 orphanRoom (by decide)
      (by decide) (by decide) (by decide) (by decide)).1 (by decide)
  exact ⟨h1, h3⟩
